import Mathlib

/-!
Shallow embedding of `synapse/app/homeserver.py` (service bootstrap
orchestrator): resource composition, listener dispatch, ACME certificate
reprovisioning decision, the startup pipeline, monthly-active-user gauge
refresh and the usage-telemetry payload.  Definitions are translated from
the Python source; theorems settle the specification's claims about them.
-/

namespace Synapse

/-! ### URL path constants

The Python module imports these from `synapse.api.urls` (source names
`CONTENT_REPO_PREFIX`, `FEDERATION_PREFIX`, `LEGACY_MEDIA_PREFIX`,
`MEDIA_PREFIX`, `SERVER_KEY_V2_PREFIX`, `STATIC_PREFIX`,
`WEB_CLIENT_PREFIX`, `METRICS_PREFIX`, `REPLICATION_PREFIX`).  They are
fixed, pairwise distinct path strings (spec section 6: a closed set of
resource names with fixed path prefixes). -/

def CONTENT_REPO_PATH : String := "/_matrix/content"
def FEDERATION_PATH : String := "/_matrix/federation/v1"
def LEGACY_MEDIA_PATH : String := "/_matrix/media/v1"
def MEDIA_PATH : String := "/_matrix/media/r0"
def SERVER_KEY_V2_PATH : String := "/_matrix/key/v2"
def STATIC_PATH : String := "/_matrix/static"
def WEB_CLIENT_PATH : String := "/_matrix/client"
def METRICS_PATH : String := "/_synapse/metrics"
def REPLICATION_PATH : String := "/_synapse/replication"

/-- The fields of `HomeServerConfig` that `homeserver.py` reads. -/
structure Config where
  saml2_enabled : Bool
  enable_media_repo : Bool
  web_client_location : Option String
  enable_metrics : Bool
  limit_usage_by_mau : Bool
  mau_stats_only : Bool
  max_mau_value : Nat
  acme_enabled : Bool
  acme_reprovision_threshold : Int
  server_name : String
  server_context : String
  event_cache_size : Nat
deriving DecidableEq

/-- The opaque HTTP handler capabilities that `_configure_named_resource`
can place in the path map.  `transportLayer none` is the full federation
`TransportLayerServer`; `transportLayer (some ["openid"])` is the
openid-restricted one. -/
inductive Resource where
  | clientRest (compress : Bool)
  | wellKnown
  | adminRest
  | saml2
  | consent (compress : Bool)
  | transportLayer (servlet_groups : Option (List String))
  | staticFile
  | mediaRepo
  | contentRepo
  | keyApiV2
  | webClientFile (path : String)
  | metricsRes
  | replicationRest
  | additional (path : String)
deriving DecidableEq

/-- The entries the `name == "client"` branch adds (client API aliases,
well-known, admin, and optionally SAML2). -/
def clientResources (cfg : Config) (compress : Bool) : List (String × Resource) :=
  [("/_matrix/client/api/v1", .clientRest compress),
   ("/_matrix/client/r0", .clientRest compress),
   ("/_matrix/client/unstable", .clientRest compress),
   ("/_matrix/client/v2_alpha", .clientRest compress),
   ("/_matrix/client/versions", .clientRest compress),
   ("/.well-known/matrix/client", .wellKnown),
   ("/_synapse/admin", .adminRest)] ++
  (if cfg.saml2_enabled then [("/_matrix/saml2", Resource.saml2)] else [])

/-- The media-repository entries added when `enable_media_repo` is set. -/
def mediaResources : List (String × Resource) :=
  [(MEDIA_PATH, .mediaRepo),
   (LEGACY_MEDIA_PATH, .mediaRepo),
   (CONTENT_REPO_PATH, .contentRepo)]

/-- The condition under which `_configure_named_resource` raises
`ConfigError`: the name is in the media block, media is disabled, and the
name is exactly `"media"`. -/
def mediaConflict (cfg : Config) (name : String) : Bool :=
  (name == "media" || name == "federation" || name == "client") &&
    !cfg.enable_media_repo && name == "media"

/-- Error message of the `ConfigError` raised on a media conflict. -/
def mediaErrMsg : String :=
  "'media' resource conflicts with enable_media_repo=False"

/-- The (path, handler) pairs `_configure_named_resource` registers for a
name, in source order, on the non-raising path. -/
def namedResourceEntries (cfg : Config) (name : String) (compress : Bool) :
    List (String × Resource) :=
  (if name == "client" then clientResources cfg compress else []) ++
  (if name == "consent" then [("/_matrix/consent", Resource.consent compress)] else []) ++
  (if name == "federation" then [(FEDERATION_PATH, Resource.transportLayer none)] else []) ++
  (if name == "openid" then
     [(FEDERATION_PATH, Resource.transportLayer (some ["openid"]))] else []) ++
  (if name == "static" || name == "client" then [(STATIC_PATH, Resource.staticFile)] else []) ++
  (if (name == "media" || name == "federation" || name == "client") &&
      cfg.enable_media_repo then mediaResources else []) ++
  (if name == "keys" || name == "federation" then
     [(SERVER_KEY_V2_PATH, Resource.keyApiV2)] else []) ++
  (if name == "webclient" then
     (match cfg.web_client_location with
      | none => []
      | some p => [(WEB_CLIENT_PATH, Resource.webClientFile p)])
   else []) ++
  (if name == "metrics" && cfg.enable_metrics then
     [(METRICS_PATH, Resource.metricsRes)] else []) ++
  (if name == "replication" then [(REPLICATION_PATH, Resource.replicationRest)] else [])

/-- Model of `SynapseHomeServer._configure_named_resource`: builds the
path map for one named resource, or raises `ConfigError` on a media
conflict. -/
def configure_named_resource (cfg : Config) (name : String) (compress : Bool) :
    Except String (List (String × Resource)) :=
  if mediaConflict cfg name then .error mediaErrMsg
  else .ok (namedResourceEntries cfg name compress)

/-- One resource-group declaration of a listener
(`{names: [...], compress: bool}`). -/
structure ResourceGroupSpec where
  names : List String
  compress : Bool
deriving DecidableEq

/-- The inner loop of `_listener_http` over one group's names: `openid` is
skipped when `"federation"` is also in the same group's name list;
otherwise the name's entries are accumulated in order.  `allNames` is the
group's full name list (the skip test consults it). -/
def groupEntriesAux (cfg : Config) (allNames : List String) (compress : Bool) :
    List String → Except String (List (String × Resource))
  | [] => .ok []
  | name :: rest =>
    if name == "openid" && allNames.contains "federation" then
      groupEntriesAux cfg allNames compress rest
    else
      match configure_named_resource cfg name compress with
      | .error e => .error e
      | .ok here =>
        match groupEntriesAux cfg allNames compress rest with
        | .error e => .error e
        | .ok later => .ok (here ++ later)

/-- All (path, handler) registrations contributed by one group, in order. -/
def groupEntries (cfg : Config) (g : ResourceGroupSpec) :
    Except String (List (String × Resource)) :=
  groupEntriesAux cfg g.names g.compress g.names

/-- The outer loop of `_listener_http` over a listener's resource groups. -/
def composeEntries (cfg : Config) :
    List ResourceGroupSpec → Except String (List (String × Resource))
  | [] => .ok []
  | g :: rest =>
    match groupEntries cfg g with
    | .error e => .error e
    | .ok here =>
      match composeEntries cfg rest with
      | .error e => .error e
      | .ok later => .ok (here ++ later)

/-- One `dict.update` step on the path map: an existing key's value is
replaced in place, a new key is appended. -/
def dictInsert (m : List (String × Resource)) (kv : String × Resource) :
    List (String × Resource) :=
  if m.any (fun p => p.1 == kv.1) then
    m.map (fun p => if p.1 == kv.1 then kv else p)
  else m ++ [kv]

/-- Folding all registrations into the final path map (Python dict
semantics: last write wins). -/
def dictOfEntries (entries : List (String × Resource)) : List (String × Resource) :=
  entries.foldl dictInsert []

/-- Python `k in resources` on the path map. -/
def hasKey (m : List (String × Resource)) (k : String) : Bool :=
  m.any (fun p => p.1 == k)

/-- The root resource `_listener_http` installs at `/`. -/
inductive RootResource where
  | redirect (target : String)
  | noResource
deriving DecidableEq

/-- A listener configuration dict, as read by `_listener_http` and
`start_listening`.  `additional_resources` is modelled by its path list
(each path is mapped to an opaque `AdditionalResource` handler). -/
structure ListenerSpec where
  type : String
  port : Nat
  bind_addresses : List String
  tls : Bool
  tag : Option String
  resources : List ResourceGroupSpec
  additional_resources : List String
deriving DecidableEq

/-- All registrations of one HTTP listener: the named resource groups
followed by the operator-supplied additional resources. -/
def listenerEntries (cfg : Config) (lc : ListenerSpec) :
    Except String (List (String × Resource)) :=
  match composeEntries cfg lc.resources with
  | .error e => .error e
  | .ok es =>
    .ok (es ++ lc.additional_resources.map (fun p => (p, Resource.additional p)))

/-- The root-redirect choice of `_listener_http`: prefer the web-client
path, else the static path, else `NoResource`. -/
def rootResourceFor (m : List (String × Resource)) : RootResource :=
  if hasKey m WEB_CLIENT_PATH then .redirect WEB_CLIENT_PATH
  else if hasKey m STATIC_PATH then .redirect STATIC_PATH
  else .noResource

/-- Model of `SynapseHomeServer._listener_http` up to socket binding:
the final path map of the resource tree and the chosen root resource. -/
def listener_http (cfg : Config) (lc : ListenerSpec) :
    Except String (List (String × Resource) × RootResource) :=
  match listenerEntries cfg lc with
  | .error e => .error e
  | .ok es =>
    let m := dictOfEntries es
    .ok (m, rootResourceFor m)

/-! ### Listener dispatch (`SynapseHomeServer.start_listening`) -/

/-- Observable effect of processing one listener spec: a socket bound, or
a warning logged. -/
inductive ListenAction where
  | httpBind (port : Nat) (addrs : List String) (tls : Bool)
  | manholeBind (port : Nat)
  | replicationBind (port : Nat)
  | metricsBind (port : Nat) (addrs : List String)
  | warnMetricsNotEnabled
  | warnUnknownListener (t : String)
deriving DecidableEq

/-- The listener types `start_listening` dispatches on. -/
def recognizedListenerTypes : List String :=
  ["http", "manhole", "replication", "metrics"]

/-- One iteration of the `start_listening` loop.  An `http` listener
composes its resource tree (which can raise `ConfigError`) and binds; a
`metrics` listener binds only when `enable_metrics` is set, otherwise a
warning is logged; an unrecognized type logs a warning. -/
def listen_one (cfg : Config) (l : ListenerSpec) : Except String (List ListenAction) :=
  if l.type == "http" then
    match listener_http cfg l with
    | .error e => .error e
    | .ok _ => .ok [.httpBind l.port l.bind_addresses l.tls]
  else if l.type == "manhole" then .ok [.manholeBind l.port]
  else if l.type == "replication" then .ok [.replicationBind l.port]
  else if l.type == "metrics" then
    if !cfg.enable_metrics then .ok [.warnMetricsNotEnabled]
    else .ok [.metricsBind l.port l.bind_addresses]
  else .ok [.warnUnknownListener l.type]

/-- Model of `SynapseHomeServer.start_listening` over an ordered
listener list. -/
def start_listening (cfg : Config) : List ListenerSpec → Except String (List ListenAction)
  | [] => .ok []
  | l :: rest =>
    match listen_one cfg l with
    | .error e => .error e
    | .ok acts =>
      match start_listening cfg rest with
      | .error e => .error e
      | .ok acc => .ok (acts ++ acc)

/-! ### ACME certificate reprovisioning (`do_acme`) -/

/-- The externally visible request `do_acme` can make. -/
inductive AcmeAction where
  | provisionCertificate
deriving DecidableEq

/-- Model of `do_acme`: decides whether to reprovision (certificate absent, or
fewer days remaining than the threshold) and requests provisioning
exactly when it so decides; returns the decision. -/
def do_acme (threshold : Int) (cert_days_remaining : Option Int) :
    Bool × List AcmeAction :=
  let provision : Bool :=
    match cert_days_remaining with
    | none => true
    | some d => decide (d < threshold)
  (provision, if provision then [AcmeAction.provisionCertificate] else [])

/-! ### Startup pipeline (`setup` and the `start` hook) -/

/-- The ordered observable steps of the boot pipeline. -/
inductive BootStep where
  | parseConfig
  | setupLogging
  | createDatabaseEngine
  | constructHomeServer
  | prepareSchema
  | startupChecks
  | serverSetup
  | registerStartHook
  | acmeStartListening
  | acmeProvision
  | bindListeners
  | startBackgroundJobs
deriving DecidableEq

/-- Outcome of a (partial) boot: steps executed in order, listener
sockets opened (address, port), diagnostic-stream messages, and the exit
code if the process exited. -/
structure BootOutcome where
  steps : List BootStep
  sockets : List (String × Nat)
  stderr : List String
  exitCode : Option Nat
deriving DecidableEq

/-- Results of the fallible collaborators `setup` invokes:
`load_or_generate_config` (ConfigError, or no config meaning
generate-only), `prepare_database` (UpgradeDatabaseException), and the
startup checks (`quit_with_error` message). -/
structure SetupEnv where
  config_result : Except String (Option Unit)
  prepare_database : Except Unit Unit
  startup_checks : Except String Unit

/-- The fixed remediation message written when `prepare_database` raises
`UpgradeDatabaseException`. -/
def upgradeMsg : String :=
  "\nFailed to upgrade database.\nHave you checked for version specific instructions in UPGRADES.rst?\n"

/-- The `setup` function: parse config (ConfigError exits 1,
generate-only exits 0), set up logging, create the database engine,
construct the server, prepare the database (UpgradeDatabaseException
writes the remediation message and exits 1), run startup checks, then
`hs.setup()` and registration of the reactor `start` hook.  No listener
socket is opened here. -/
def setup_model (env : SetupEnv) : BootOutcome :=
  match env.config_result with
  | .error e =>
    { steps := [.parseConfig], sockets := [],
      stderr := ["\n" ++ e ++ "\n"], exitCode := some 1 }
  | .ok none =>
    { steps := [.parseConfig], sockets := [], stderr := [], exitCode := some 0 }
  | .ok (some _) =>
    match env.prepare_database with
    | .error _ =>
      { steps := [.parseConfig, .setupLogging, .createDatabaseEngine,
                  .constructHomeServer, .prepareSchema],
        sockets := [], stderr := [upgradeMsg], exitCode := some 1 }
    | .ok _ =>
      match env.startup_checks with
      | .error m =>
        { steps := [.parseConfig, .setupLogging, .createDatabaseEngine,
                    .constructHomeServer, .prepareSchema, .startupChecks],
          sockets := [], stderr := [m], exitCode := some 1 }
      | .ok _ =>
        { steps := [.parseConfig, .setupLogging, .createDatabaseEngine,
                    .constructHomeServer, .prepareSchema, .startupChecks,
                    .serverSetup, .registerStartHook],
          sockets := [], stderr := [], exitCode := none }

/-- The sockets `_base.start` opens for a listener list. -/
def bindSockets (listeners : List ListenerSpec) : List (String × Nat) :=
  listeners.flatMap (fun l => l.bind_addresses.map (fun a => (a, l.port)))

/-- The `start` reactor hook: when ACME is enabled it starts the
challenge responder and provisions; any exception is caught by the
top-level `except`, printed, and the process exits 1 — before
`_base.start` binds any listener.  Otherwise listeners are bound and
background jobs started. -/
def start_model (cfg : Config) (acme_provision : Except Unit Bool)
    (listeners : List ListenerSpec) : BootOutcome :=
  if cfg.acme_enabled then
    match acme_provision with
    | .error _ =>
      { steps := [.acmeStartListening, .acmeProvision],
        sockets := [], stderr := ["Error during startup:"], exitCode := some 1 }
    | .ok _ =>
      { steps := [.acmeStartListening, .acmeProvision, .bindListeners,
                  .startBackgroundJobs],
        sockets := bindSockets listeners, stderr := [], exitCode := none }
  else
    { steps := [.bindListeners, .startBackgroundJobs],
      sockets := bindSockets listeners, stderr := [], exitCode := none }

/-- Full boot: `setup`, then — only if `setup` did not exit — the
`start` hook fired by the reactor. -/
def boot_model (env : SetupEnv) (cfg : Config) (acme_provision : Except Unit Bool)
    (listeners : List ListenerSpec) : BootOutcome :=
  let s := setup_model env
  match s.exitCode with
  | some _ => s
  | none =>
    let t := start_model cfg acme_provision listeners
    { steps := s.steps ++ t.steps, sockets := s.sockets ++ t.sockets,
      stderr := s.stderr ++ t.stderr, exitCode := t.exitCode }

/-! ### Monthly-active-user gauges (`generate_monthly_active_users`) -/

/-- Datastore counters consulted by the MAU refresh. -/
structure MauStore where
  monthly_active_count : Nat
  registered_reserved_users_count : Nat
deriving DecidableEq

/-- Datastore queries the MAU refresh can issue. -/
inductive MauQuery where
  | getMonthlyActiveCount
  | getRegisteredReservedUsersCount
deriving DecidableEq

/-- Model of `generate_monthly_active_users`: gauges set (name, value) in source
order — current, registered-reserved, max — together with the datastore
queries actually issued.  The Python sets the gauges to
`float(count)`; the numeric value is modelled directly. -/
def generate_monthly_active_users (cfg : Config) (store : MauStore) :
    List (String × Nat) × List MauQuery :=
  let enabled := cfg.limit_usage_by_mau || cfg.mau_stats_only
  let current_mau_count := if enabled then store.monthly_active_count else 0
  let reserved_count := if enabled then store.registered_reserved_users_count else 0
  let queries :=
    if enabled then
      [MauQuery.getMonthlyActiveCount, MauQuery.getRegisteredReservedUsersCount]
    else []
  ([("synapse_admin_mau:current", current_mau_count),
    ("synapse_admin_mau:registered_reserved_users", reserved_count),
    ("synapse_admin_mau:max", cfg.max_mau_value)], queries)

/-! ### Usage telemetry (`phone_stats_home`) -/

/-- A value in the telemetry payload. -/
inductive StatValue where
  | s (v : String)
  | n (v : Int)
deriving DecidableEq

/-- The datastore counters `phone_stats_home` reads. -/
structure StatsStore where
  count_all_users : Nat
  count_nonbridged_users : Nat
  count_daily_user_type : List (String × Nat)
  get_room_count : Nat
  count_daily_users : Nat
  count_monthly_users : Nat
  count_daily_active_rooms : Nat
  count_daily_messages : Nat
  count_r30_users : List (String × Nat)
  count_daily_sent_messages : Nat
  database_engine_name : String
  get_server_version : String
deriving DecidableEq

/-- The assignments `phone_stats_home` makes into the `stats` dict, in
source order.  `stats_process` is the monitored-process list as
(memory_rss, cpu_percent) readings. -/
def phone_stats_home (cfg : Config) (store : StatsStore) (now start_time : Int)
    (python_version : String) (cache_factor : Int)
    (stats_process : List (Nat × Nat)) : List (String × StatValue) :=
  let uptime : Int := now - start_time
  let uptime : Int := if uptime < 0 then 0 else uptime
  [("homeserver", StatValue.s cfg.server_name),
   ("server_context", StatValue.s cfg.server_context),
   ("timestamp", StatValue.n now),
   ("uptime_seconds", StatValue.n uptime),
   ("python_version", StatValue.s python_version),
   ("total_users", StatValue.n store.count_all_users),
   ("total_nonbridged_users", StatValue.n store.count_nonbridged_users)] ++
  store.count_daily_user_type.map
    (fun p => ("daily_user_type_" ++ p.1, StatValue.n p.2)) ++
  [("total_room_count", StatValue.n store.get_room_count),
   ("daily_active_users", StatValue.n store.count_daily_users),
   ("monthly_active_users", StatValue.n store.count_monthly_users),
   ("daily_active_rooms", StatValue.n store.count_daily_active_rooms),
   ("daily_messages", StatValue.n store.count_daily_messages)] ++
  store.count_r30_users.map
    (fun p => ("r30_users_" ++ p.1, StatValue.n p.2)) ++
  [("daily_sent_messages", StatValue.n store.count_daily_sent_messages),
   ("cache_factor", StatValue.n cache_factor),
   ("event_cache_size", StatValue.n cfg.event_cache_size)] ++
  (if stats_process.length > 0 then
     [("memory_rss", StatValue.n ((stats_process.map (fun p => (p.1 : Int))).sum)),
      ("cpu_average", StatValue.n ((stats_process.map (fun p => (p.2 : Int))).sum))]
   else []) ++
  [("database_engine", StatValue.s store.database_engine_name),
   ("database_server_version", StatValue.s store.get_server_version)]

/-- Dict lookup over the assignment list (Python dict semantics: the
last assignment to a key wins). -/
def statsGet (stats : List (String × StatValue)) (k : String) : Option StatValue :=
  stats.foldl (fun acc p => if p.1 == k then some p.2 else acc) none

/-! ### Derived constants and concrete inputs used in the verification -/

/-- The full-federation registration made by the `federation` name. -/
def fullFedEntry : String × Resource := (FEDERATION_PATH, Resource.transportLayer none)

/-- The openid-restricted federation handler. -/
def openidHandler : Resource := Resource.transportLayer (some ["openid"])

/-- A configuration with the media repository disabled. -/
def cfgNoMedia : Config :=
  { saml2_enabled := false, enable_media_repo := false,
    web_client_location := none, enable_metrics := false,
    limit_usage_by_mau := false, mau_stats_only := false,
    max_mau_value := 0, acme_enabled := false,
    acme_reprovision_threshold := 30, server_name := "example.com",
    server_context := "", event_cache_size := 0 }

/-- A resource group carrying only the `federation` name. -/
def grpFederation : ResourceGroupSpec := ⟨["federation"], false⟩

/-- A resource group carrying `federation` and `openid` together. -/
def grpFedOpenid : ResourceGroupSpec := ⟨["federation", "openid"], false⟩

/-- The registrations the `federation`+`openid` group produces under
`cfgNoMedia` (openid skipped, so only the full federation handler and
the server-key endpoint). -/
def esFedOpenid : List (String × Resource) :=
  [(FEDERATION_PATH, Resource.transportLayer none),
   (SERVER_KEY_V2_PATH, Resource.keyApiV2)]

/-- A configuration with a web-client location set. -/
def cfgWeb : Config :=
  { saml2_enabled := false, enable_media_repo := true,
    web_client_location := some "/srv/webclient", enable_metrics := false,
    limit_usage_by_mau := false, mau_stats_only := false,
    max_mau_value := 0, acme_enabled := false,
    acme_reprovision_threshold := 30, server_name := "example.com",
    server_context := "", event_cache_size := 0 }

/-- An HTTP listener serving only the `webclient` resource. -/
def lcWeb : ListenerSpec :=
  { type := "http", port := 8008, bind_addresses := ["::1"], tls := false,
    tag := none, resources := [⟨["webclient"], false⟩],
    additional_resources := [] }

/-- The path map `lcWeb` composes under `cfgWeb`. -/
def mWeb : List (String × Resource) :=
  [(WEB_CLIENT_PATH, Resource.webClientFile "/srv/webclient")]

/-- An environment whose schema preparation fails. -/
def envUpgradeFail : SetupEnv :=
  { config_result := .ok (some ()), prepare_database := .error (),
    startup_checks := .ok () }

/-- A configuration with ACME certificate automation enabled. -/
def cfgAcme : Config :=
  { saml2_enabled := false, enable_media_repo := true,
    web_client_location := none, enable_metrics := false,
    limit_usage_by_mau := false, mau_stats_only := false,
    max_mau_value := 0, acme_enabled := true,
    acme_reprovision_threshold := 30, server_name := "example.com",
    server_context := "", event_cache_size := 0 }

/-- A plain (non-TLS) HTTP listener with no resources. -/
def plainListener : ListenerSpec :=
  { type := "http", port := 8008, bind_addresses := ["::1"], tls := false,
    tag := none, resources := [], additional_resources := [] }

/-- A `metrics` listener spec. -/
def lcMetrics : ListenerSpec :=
  { type := "metrics", port := 9090, bind_addresses := ["127.0.0.1"],
    tls := false, tag := none, resources := [], additional_resources := [] }

/-- A configuration with MAU limiting enabled. -/
def cfgMau : Config :=
  { saml2_enabled := false, enable_media_repo := true,
    web_client_location := none, enable_metrics := false,
    limit_usage_by_mau := true, mau_stats_only := false,
    max_mau_value := 50, acme_enabled := false,
    acme_reprovision_threshold := 30, server_name := "example.com",
    server_context := "", event_cache_size := 0 }

/-- A concrete MAU datastore. -/
def mauStoreW : MauStore :=
  { monthly_active_count := 7, registered_reserved_users_count := 2 }

/-- A concrete telemetry datastore stub (10 total users, 2 rooms). -/
def statsStoreW : StatsStore :=
  { count_all_users := 10, count_nonbridged_users := 8,
    count_daily_user_type := [("native", 3)], get_room_count := 2,
    count_daily_users := 4, count_monthly_users := 6,
    count_daily_active_rooms := 1, count_daily_messages := 20,
    count_r30_users := [("all", 5)], count_daily_sent_messages := 9,
    database_engine_name := "sqlite3", get_server_version := "3.22" }

end Synapse

namespace Synapse

/-! ## Helper lemmas about the resource composer -/

/-- Membership analysis of `namedResourceEntries`: media paths appear
only when the media repository is enabled; the federation path is
registered only by the names `federation` (full handler) and `openid`
(restricted handler); the restricted handler arises only from `openid`. -/
theorem namedResourceEntries_spec (cfg : Config) (name : String) (c : Bool)
    (p : String × Resource) (hp : p ∈ namedResourceEntries cfg name c) :
    ((p.1 = MEDIA_PATH ∨ p.1 = LEGACY_MEDIA_PATH ∨ p.1 = CONTENT_REPO_PATH) →
       cfg.enable_media_repo = true) ∧
    (p.1 = FEDERATION_PATH →
       (name = "federation" ∧ p.2 = Resource.transportLayer none) ∨
       (name = "openid" ∧ p.2 = Resource.transportLayer (some ["openid"]))) ∧
    (p.2 = Resource.transportLayer (some ["openid"]) → name = "openid") := by
  simp only [namedResourceEntries, List.mem_append] at hp
  rcases hp with ((((((((hp | hp) | hp) | hp) | hp) | hp) | hp) | hp) | hp) | hp
  · -- client segment
    split at hp
    · next hname =>
      simp only [beq_iff_eq] at hname
      simp only [clientResources, List.mem_append, List.mem_cons,
        List.mem_singleton, List.not_mem_nil, or_false] at hp
      rcases hp with (hp | hp | hp | hp | hp | hp | hp) | hp
      all_goals first
      | (subst hp
         refine ⟨?_, ?_, ?_⟩ <;> intro h <;>
           simp_all [MEDIA_PATH, LEGACY_MEDIA_PATH, CONTENT_REPO_PATH,
             FEDERATION_PATH])
      | (split at hp
         · simp only [List.mem_singleton] at hp
           subst hp
           refine ⟨?_, ?_, ?_⟩ <;> intro h <;>
             simp_all [MEDIA_PATH, LEGACY_MEDIA_PATH, CONTENT_REPO_PATH,
               FEDERATION_PATH]
         · simp at hp)
    · simp at hp
  · -- consent
    split at hp
    · simp only [List.mem_singleton] at hp
      subst hp
      refine ⟨?_, ?_, ?_⟩ <;> intro h <;>
        simp_all [MEDIA_PATH, LEGACY_MEDIA_PATH, CONTENT_REPO_PATH,
          FEDERATION_PATH]
    · simp at hp
  · -- federation
    split at hp
    · next hname =>
      simp only [beq_iff_eq] at hname
      simp only [List.mem_singleton] at hp
      subst hp
      refine ⟨?_, ?_, ?_⟩ <;> intro h
      · simp_all [MEDIA_PATH, LEGACY_MEDIA_PATH, CONTENT_REPO_PATH,
          FEDERATION_PATH]
      · exact Or.inl ⟨hname, rfl⟩
      · simp at h
    · simp at hp
  · -- openid
    split at hp
    · next hname =>
      simp only [beq_iff_eq] at hname
      simp only [List.mem_singleton] at hp
      subst hp
      refine ⟨?_, ?_, ?_⟩ <;> intro h
      · simp_all [MEDIA_PATH, LEGACY_MEDIA_PATH, CONTENT_REPO_PATH,
          FEDERATION_PATH]
      · exact Or.inr ⟨hname, rfl⟩
      · exact hname
    · simp at hp
  · -- static
    split at hp
    · simp only [List.mem_singleton] at hp
      subst hp
      refine ⟨?_, ?_, ?_⟩ <;> intro h <;>
        simp_all [MEDIA_PATH, LEGACY_MEDIA_PATH, CONTENT_REPO_PATH,
          FEDERATION_PATH, STATIC_PATH]
    · simp at hp
  · -- media
    split at hp
    · next hcond =>
      have hrepo : cfg.enable_media_repo = true := by
        rcases Bool.and_eq_true_iff.mp hcond with ⟨-, h2⟩
        exact h2
      simp only [mediaResources, List.mem_cons, List.mem_singleton,
        List.not_mem_nil, or_false] at hp
      rcases hp with hp | hp | hp
      all_goals
        (subst hp
         refine ⟨?_, ?_, ?_⟩ <;> intro h <;>
           simp_all [MEDIA_PATH, LEGACY_MEDIA_PATH, CONTENT_REPO_PATH,
             FEDERATION_PATH])
    · simp at hp
  · -- keys
    split at hp
    · simp only [List.mem_singleton] at hp
      subst hp
      refine ⟨?_, ?_, ?_⟩ <;> intro h <;>
        simp_all [MEDIA_PATH, LEGACY_MEDIA_PATH, CONTENT_REPO_PATH,
          FEDERATION_PATH, SERVER_KEY_V2_PATH]
    · simp at hp
  · -- webclient
    split at hp
    · split at hp
      · simp at hp
      · simp only [List.mem_singleton] at hp
        subst hp
        refine ⟨?_, ?_, ?_⟩ <;> intro h <;>
          simp_all [MEDIA_PATH, LEGACY_MEDIA_PATH, CONTENT_REPO_PATH,
            FEDERATION_PATH, WEB_CLIENT_PATH]
    · simp at hp
  · -- metrics
    split at hp
    · simp only [List.mem_singleton] at hp
      subst hp
      refine ⟨?_, ?_, ?_⟩ <;> intro h <;>
        simp_all [MEDIA_PATH, LEGACY_MEDIA_PATH, CONTENT_REPO_PATH,
          FEDERATION_PATH, METRICS_PATH]
    · simp at hp
  · -- replication
    split at hp
    · simp only [List.mem_singleton] at hp
      subst hp
      refine ⟨?_, ?_, ?_⟩ <;> intro h <;>
        simp_all [MEDIA_PATH, LEGACY_MEDIA_PATH, CONTENT_REPO_PATH,
          FEDERATION_PATH, REPLICATION_PATH]
    · simp at hp

theorem mediaConflict_eq (cfg : Config) (name : String) :
    mediaConflict cfg name = (name == "media" && !cfg.enable_media_repo) := by
  cases hm : (name == "media") <;> simp [mediaConflict, hm]

theorem configure_ok_of_ne_media (cfg : Config) (name : String) (c : Bool)
    (h : name ≠ "media") :
    configure_named_resource cfg name c = .ok (namedResourceEntries cfg name c) := by
  have : (name == "media") = false := beq_eq_false_iff_ne.mpr h
  simp [configure_named_resource, mediaConflict_eq, this]

theorem configure_media_error (cfg : Config) (c : Bool)
    (hm : cfg.enable_media_repo = false) :
    configure_named_resource cfg "media" c = .error mediaErrMsg := by
  simp [configure_named_resource, mediaConflict_eq, hm]

theorem configure_ok_inv (cfg : Config) (name : String) (c : Bool)
    (es : List (String × Resource))
    (h : configure_named_resource cfg name c = .ok es) :
    es = namedResourceEntries cfg name c := by
  unfold configure_named_resource at h
  split at h
  · cases h
  · cases h; rfl

/-- Processing a group whose name list contains `media` while the media
repository is disabled raises the `ConfigError`. -/
theorem aux_error_of_media (cfg : Config) (allNames : List String) (c : Bool)
    (hm : cfg.enable_media_repo = false) :
    ∀ l, "media" ∈ l → groupEntriesAux cfg allNames c l = .error mediaErrMsg := by
  intro l
  induction l with
  | nil => intro h; simp at h
  | cons name rest ih =>
    intro h
    by_cases hskip : (name == "openid" && allNames.contains "federation") = true
    · have hname : name = "openid" := by
        rcases Bool.and_eq_true_iff.mp hskip with ⟨h1, -⟩
        exact beq_iff_eq.mp h1
      have hmem : "media" ∈ rest := by
        rcases List.mem_cons.mp h with h' | h'
        · rw [hname] at h'; exact absurd h' (by decide)
        · exact h'
      simp only [groupEntriesAux, hskip, if_true]
      exact ih hmem
    · have hskipf : (name == "openid" && allNames.contains "federation") = false := by
        revert hskip
        cases (name == "openid" && allNames.contains "federation") <;> simp
      by_cases hmedia : name = "media"
      · subst hmedia
        simp only [groupEntriesAux, hskipf, Bool.false_eq_true, if_false,
          configure_media_error cfg c hm]
      · have hmem : "media" ∈ rest := by
          rcases List.mem_cons.mp h with h' | h'
          · exact absurd h'.symm hmedia
          · exact h'
        simp only [groupEntriesAux, hskipf, Bool.false_eq_true, if_false,
          configure_ok_of_ne_media cfg name c hmedia, ih hmem]

/-- Processing a group without `media` while the media repository is
disabled succeeds and registers no media path. -/
theorem aux_ok_of_no_media (cfg : Config) (allNames : List String) (c : Bool)
    (hm : cfg.enable_media_repo = false) :
    ∀ l, "media" ∉ l → ∃ es, groupEntriesAux cfg allNames c l = .ok es ∧
      ∀ p ∈ es, p.1 ≠ MEDIA_PATH ∧ p.1 ≠ LEGACY_MEDIA_PATH ∧ p.1 ≠ CONTENT_REPO_PATH := by
  intro l
  induction l with
  | nil => intro _; exact ⟨[], rfl, by intro p hp; simp at hp⟩
  | cons name rest ih =>
    intro h
    have hname : name ≠ "media" := fun he => h (he ▸ List.mem_cons_self name rest)
    have hmem : "media" ∉ rest := fun hr => h (List.mem_cons_of_mem name hr)
    obtain ⟨es, hes, hprop⟩ := ih hmem
    by_cases hskip : (name == "openid" && allNames.contains "federation") = true
    · exact ⟨es, by simp only [groupEntriesAux, hskip, if_true]; exact hes, hprop⟩
    · have hskipf : (name == "openid" && allNames.contains "federation") = false := by
        revert hskip
        cases (name == "openid" && allNames.contains "federation") <;> simp
      refine ⟨namedResourceEntries cfg name c ++ es, ?_, ?_⟩
      · simp only [groupEntriesAux, hskipf, Bool.false_eq_true, if_false,
          configure_ok_of_ne_media cfg name c hname, hes]
      · intro p hp
        rcases List.mem_append.mp hp with hp | hp
        · have hk := (namedResourceEntries_spec cfg name c p hp).1
          refine ⟨?_, ?_, ?_⟩ <;> intro he <;>
            simp [he, hm] at hk
        · exact hprop p hp

theorem entries_openid (cfg : Config) (c : Bool) :
    namedResourceEntries cfg "openid" c =
      [(FEDERATION_PATH, openidHandler)] := rfl

theorem filter_fed_federation (cfg : Config) (c : Bool) :
    (namedResourceEntries cfg "federation" c).filter
      (fun p => p.1 == FEDERATION_PATH) = [fullFedEntry] := by
  cases hm : cfg.enable_media_repo <;>
    simp [namedResourceEntries, clientResources, mediaResources, hm,
      fullFedEntry, FEDERATION_PATH, MEDIA_PATH, LEGACY_MEDIA_PATH,
      CONTENT_REPO_PATH, SERVER_KEY_V2_PATH]

theorem filter_fed_of_ne (cfg : Config) (name : String) (c : Bool)
    (h1 : name ≠ "federation") (h2 : name ≠ "openid") :
    (namedResourceEntries cfg name c).filter
      (fun p => p.1 == FEDERATION_PATH) = [] := by
  rw [List.filter_eq_nil_iff]
  intro p hp hbeq
  have hspec := (namedResourceEntries_spec cfg name c p hp).2.1
  rcases hspec (beq_iff_eq.mp hbeq) with ⟨hf, -⟩ | ⟨ho, -⟩
  · exact h1 hf
  · exact h2 ho

theorem no_openid_handler_of_ne (cfg : Config) (name : String) (c : Bool)
    (h2 : name ≠ "openid") :
    ∀ p ∈ namedResourceEntries cfg name c, p.2 ≠ openidHandler := by
  intro p hp he
  exact h2 ((namedResourceEntries_spec cfg name c p hp).2.2 he)

/-- With `federation` present in the group's name set, the group's
registrations at the federation path are exactly one full-federation
entry per occurrence of `federation` in the traversed list, and no
openid-restricted handler is ever registered. -/
theorem aux_fed_filter (cfg : Config) (allNames : List String) (c : Bool)
    (hfed : allNames.contains "federation" = true) :
    ∀ l es, groupEntriesAux cfg allNames c l = .ok es →
      es.filter (fun p => p.1 == FEDERATION_PATH) =
        List.replicate (l.count "federation") fullFedEntry ∧
      ∀ p ∈ es, p.2 ≠ openidHandler := by
  intro l
  induction l with
  | nil =>
    intro es hes
    cases hes
    exact ⟨rfl, by intro p hp; simp at hp⟩
  | cons name rest ih =>
    intro es hes
    by_cases hskip : (name == "openid" && allNames.contains "federation") = true
    · have hname : name = "openid" := by
        rcases Bool.and_eq_true_iff.mp hskip with ⟨h1, -⟩
        exact beq_iff_eq.mp h1
      simp only [groupEntriesAux, hskip, if_true] at hes
      obtain ⟨h1, h2⟩ := ih es hes
      refine ⟨?_, h2⟩
      rw [h1, hname]
      congr 1
    · have hskipf : (name == "openid" && allNames.contains "federation") = false := by
        revert hskip
        cases (name == "openid" && allNames.contains "federation") <;> simp
      have hnameop : name ≠ "openid" := by
        intro he
        rw [he, hfed] at hskipf
        simp at hskipf
      simp only [groupEntriesAux, hskipf, Bool.false_eq_true, if_false] at hes
      cases hconf : configure_named_resource cfg name c with
      | error e => rw [hconf] at hes; cases hes
      | ok here =>
        rw [hconf] at hes
        cases haux : groupEntriesAux cfg allNames c rest with
        | error e => rw [haux] at hes; cases hes
        | ok later =>
          rw [haux] at hes
          cases hes
          have hhere := configure_ok_inv cfg name c here hconf
          obtain ⟨ih1, ih2⟩ := ih later haux
          constructor
          · rw [List.filter_append, ih1, hhere]
            by_cases hnf : name = "federation"
            · subst hnf
              rw [filter_fed_federation]
              simp [List.count_cons, List.replicate_succ]
            · rw [filter_fed_of_ne cfg name c hnf hnameop]
              have : (name :: rest).count "federation" = rest.count "federation" := by
                simp [List.count_cons, hnf]
              rw [this]
              simp
          · intro p hp
            rcases List.mem_append.mp hp with hp | hp
            · exact no_openid_handler_of_ne cfg name c hnameop p (hhere ▸ hp)
            · exact ih2 p hp

/-- Without `federation` in the group's name set, an `openid` name does
register the restricted federation handler. -/
theorem aux_openid_registers (cfg : Config) (allNames : List String) (c : Bool)
    (hfed : allNames.contains "federation" = false) :
    ∀ l es, "openid" ∈ l → groupEntriesAux cfg allNames c l = .ok es →
      (FEDERATION_PATH, openidHandler) ∈ es := by
  intro l
  induction l with
  | nil => intro es h; simp at h
  | cons name rest ih =>
    intro es hmem hes
    have hskipf : (name == "openid" && allNames.contains "federation") = false := by
      rw [hfed]
      exact Bool.and_false _
    simp only [groupEntriesAux, hskipf, Bool.false_eq_true, if_false] at hes
    cases hconf : configure_named_resource cfg name c with
    | error e => rw [hconf] at hes; cases hes
    | ok here =>
      rw [hconf] at hes
      cases haux : groupEntriesAux cfg allNames c rest with
      | error e => rw [haux] at hes; cases hes
      | ok later =>
        rw [haux] at hes
        cases hes
        have hhere := configure_ok_inv cfg name c here hconf
        by_cases hno : name = "openid"
        · subst hno
          rw [hhere, entries_openid]
          simp
        · have : "openid" ∈ rest := by
            rcases List.mem_cons.mp hmem with h' | h'
            · exact absurd h'.symm hno
            · exact h'
          exact List.mem_append.mpr (Or.inr (ih later this haux))

end Synapse

namespace Synapse

/-! ## Claim C1 -/

/-- C1 counterexample: the claim asserts that composing
`[{names:{federation, media}}]` with media disabled succeeds, but the
code raises `ConfigError` whenever the name `media` itself is processed
with `enable_media_repo=False`, even if `federation` is in the same
group. -/
theorem C1_fed_media_fails :
    composeEntries cfgNoMedia [⟨["federation", "media"], false⟩] =
      .error mediaErrMsg := rfl

/-- C1 (amended): with media disabled, composing any group whose name
set contains `media` fails with the `ConfigError`, while composing any
group without `media` in its name set (including ones reaching the media
paths only via `federation`/`client`) succeeds and registers no media
path. -/
theorem C1_media_conflict_asymmetry (cfg : Config) (g : ResourceGroupSpec)
    (hm : cfg.enable_media_repo = false) :
    ("media" ∈ g.names → groupEntries cfg g = .error mediaErrMsg) ∧
    ("media" ∉ g.names → ∃ es, groupEntries cfg g = .ok es ∧
      ∀ p ∈ es, p.1 ≠ MEDIA_PATH ∧ p.1 ≠ LEGACY_MEDIA_PATH ∧
        p.1 ≠ CONTENT_REPO_PATH) := by
  constructor
  · intro h
    exact aux_error_of_media cfg g.names g.compress hm g.names h
  · intro h
    exact aux_ok_of_no_media cfg g.names g.compress hm g.names h

/-- C1 witness: instantiating the amended theorem at the
media-disabled configuration and the `media`-only group, the failing
side fires on the concrete input. -/
theorem C1_media_conflict_asymmetry_witness :
    groupEntries cfgNoMedia ⟨["media"], false⟩ = .error mediaErrMsg :=
  (C1_media_conflict_asymmetry cfgNoMedia ⟨["media"], false⟩ rfl).1 (by decide)

/-! ## Claim C2 -/

/-- C2: in a duplicate-free group containing both `federation` and
`openid`, composition skips `openid`: the federation path is registered
exactly once, with the full federation handler, and no openid-restricted
handler is registered for that group.  The skip applies only when
`federation` is in the same group's name set: a group with `openid` but
without `federation` does register the restricted handler. -/
theorem C2_openid_skip_same_group (cfg : Config) (g : ResourceGroupSpec) :
    (g.names.Nodup → "federation" ∈ g.names → "openid" ∈ g.names →
      ∀ es, groupEntries cfg g = .ok es →
        es.filter (fun p => p.1 == FEDERATION_PATH) = [fullFedEntry] ∧
        ∀ p ∈ es, p.2 ≠ openidHandler) ∧
    ("openid" ∈ g.names → "federation" ∉ g.names →
      ∀ es, groupEntries cfg g = .ok es →
        (FEDERATION_PATH, openidHandler) ∈ es) := by
  constructor
  · intro hnd hfed hop es hes
    have hcontains : g.names.contains "federation" = true :=
      List.elem_eq_true_of_mem hfed
    obtain ⟨h1, h2⟩ := aux_fed_filter cfg g.names g.compress hcontains g.names es hes
    refine ⟨?_, h2⟩
    rw [h1, List.count_eq_one_of_mem hnd hfed, List.replicate_one]
  · intro hop hfedn es hes
    have hcontains : g.names.contains "federation" = false := by
      cases hc : g.names.contains "federation" with
      | false => rfl
      | true => exact absurd (List.mem_of_elem_eq_true hc) hfedn
    exact aux_openid_registers cfg g.names g.compress hcontains g.names es hop hes

/-- C2 witness: for the concrete `federation`+`openid` group the
composed registrations carry the federation path exactly once, with the
full handler. -/
theorem C2_openid_skip_same_group_witness :
    esFedOpenid.filter (fun p => p.1 == FEDERATION_PATH) = [fullFedEntry] :=
  ((C2_openid_skip_same_group cfgNoMedia grpFedOpenid).1 (by decide) (by decide)
    (by decide) esFedOpenid rfl).1

/-! ## Claim C6 -/

/-- C6: for every composed resource tree, the root target follows the
fixed precedence over the final path map: web-client path registered →
redirect there; else static path registered → redirect there; else a
not-found placeholder. -/
theorem C6_root_redirect_precedence (cfg : Config) (lc : ListenerSpec) :
    ∀ m r, listener_http cfg lc = .ok (m, r) →
      (hasKey m WEB_CLIENT_PATH = true → r = .redirect WEB_CLIENT_PATH) ∧
      (hasKey m WEB_CLIENT_PATH = false → hasKey m STATIC_PATH = true →
        r = .redirect STATIC_PATH) ∧
      (hasKey m WEB_CLIENT_PATH = false → hasKey m STATIC_PATH = false →
        r = .noResource) := by
  intro m r h
  unfold listener_http at h
  cases he : listenerEntries cfg lc with
  | error e => rw [he] at h; cases h
  | ok es =>
    rw [he] at h
    have hm : m = dictOfEntries es := by
      cases h; rfl
    have hr : r = rootResourceFor (dictOfEntries es) := by
      cases h; rfl
    subst hm
    subst hr
    refine ⟨?_, ?_, ?_⟩
    · intro hw
      rw [rootResourceFor, if_pos hw]
    · intro hw hs
      rw [rootResourceFor, if_neg (by simp [hw]), if_pos hs]
    · intro hw hs
      rw [rootResourceFor, if_neg (by simp [hw]), if_neg (by simp [hs])]

/-- C6 witness: a listener serving only `webclient` composes a map
containing the web-client path, and its root redirects there. -/
theorem C6_root_redirect_precedence_witness :
    rootResourceFor mWeb = RootResource.redirect WEB_CLIENT_PATH :=
  (C6_root_redirect_precedence cfgWeb lcWeb mWeb (rootResourceFor mWeb) rfl).1 rfl

end Synapse

namespace Synapse

/-! ## Claim C3 -/

/-- C3: `do_acme` decides to reprovision — and issues the provisioning
request — exactly when the certificate days-remaining value is absent or
below the threshold; in particular, with threshold 30: 10 days → true,
45 days → false, absent → true, and 90 days (after a renewal) → false. -/
theorem C3_reprovision_iff (t : Int) (cd : Option Int) :
    ((do_acme t cd).1 = true ↔ cd = none ∨ ∃ d, cd = some d ∧ d < t) ∧
    ((do_acme t cd).2 = [AcmeAction.provisionCertificate] ↔ (do_acme t cd).1 = true) ∧
    ((do_acme 30 (some 10)).1 = true ∧ (do_acme 30 (some 45)).1 = false ∧
     (do_acme 30 none).1 = true ∧ (do_acme 30 (some 90)).1 = false) := by
  refine ⟨?_, ?_, by decide⟩
  · cases cd with
    | none => simp [do_acme]
    | some d => simp [do_acme]
  · cases cd with
    | none => simp [do_acme]
    | some d => by_cases h : d < t <;> simp [do_acme, h]

/-! ## Claim C4 -/

/-- C4: if `prepare_database` raises `UpgradeDatabaseException`, the
boot pipeline writes the fixed remediation message and exits with code
1 before the listener-binding step: no socket is opened and the
`bindListeners` step never runs. -/
theorem C4_upgrade_error_aborts (env : SetupEnv) (cfg : Config)
    (prov : Except Unit Bool) (listeners : List ListenerSpec)
    (hc : env.config_result = .ok (some ()))
    (h : env.prepare_database = .error ()) :
    (boot_model env cfg prov listeners).exitCode = some 1 ∧
    (boot_model env cfg prov listeners).stderr = [upgradeMsg] ∧
    (boot_model env cfg prov listeners).sockets = [] ∧
    BootStep.bindListeners ∉ (boot_model env cfg prov listeners).steps := by
  simp [boot_model, setup_model, hc, h]

/-- C4 witness: the failing-schema environment exits 1 with the
remediation message and never reaches listener binding. -/
theorem C4_upgrade_error_aborts_witness :
    (boot_model envUpgradeFail cfgNoMedia (.ok true) []).exitCode = some 1 ∧
    (boot_model envUpgradeFail cfgNoMedia (.ok true) []).stderr = [upgradeMsg] ∧
    (boot_model envUpgradeFail cfgNoMedia (.ok true) []).sockets = [] ∧
    BootStep.bindListeners ∉ (boot_model envUpgradeFail cfgNoMedia (.ok true) []).steps :=
  C4_upgrade_error_aborts envUpgradeFail cfgNoMedia (.ok true) [] rfl rfl

/-! ## Claim C5 -/

/-- C5 counterexample: with ACME enabled, a failed certificate
provisioning is fatal even though no TLS listener depends on the
certificate (the only listener is non-TLS): the process exits 1 rather
than continuing as the claim asserts. -/
theorem C5_nonfatal_claim_fails :
    plainListener.tls = false ∧
    (start_model cfgAcme (.error ()) [plainListener]).exitCode = some 1 :=
  ⟨rfl, rfl⟩

/-- C5 (amended): when certificate automation is enabled, a failure of
the provisioning step is always fatal — the `start` hook's top-level
handler exits 1 before any listener is bound — regardless of whether
any TLS listener depends on the certificate. -/
theorem C5_provision_failure_always_fatal (cfg : Config)
    (listeners : List ListenerSpec) (h : cfg.acme_enabled = true) :
    (start_model cfg (.error ()) listeners).exitCode = some 1 ∧
    (start_model cfg (.error ()) listeners).sockets = [] := by
  simp [start_model, h]

/-- C5 witness: the amended theorem at the ACME-enabled configuration
with a single non-TLS listener. -/
theorem C5_provision_failure_always_fatal_witness :
    (start_model cfgAcme (.error ()) [plainListener]).exitCode = some 1 ∧
    (start_model cfgAcme (.error ()) [plainListener]).sockets = [] :=
  C5_provision_failure_always_fatal cfgAcme [plainListener] rfl

/-! ## Claim C7 -/

/-- C7: a `metrics` listener binds only when metrics reporting is
enabled and is otherwise skipped with a warning; an unrecognized
listener type is skipped with a warning; in both cases processing never
fails and the remaining listener specs are processed normally. -/
theorem C7_metrics_and_unknown_nonfatal (cfg : Config) (l : ListenerSpec) :
    (l.type = "metrics" →
      listen_one cfg l = .ok (if cfg.enable_metrics then
        [.metricsBind l.port l.bind_addresses] else [.warnMetricsNotEnabled])) ∧
    (l.type ∉ recognizedListenerTypes →
      listen_one cfg l = .ok [.warnUnknownListener l.type]) ∧
    ((l.type = "metrics" ∨ l.type ∉ recognizedListenerTypes) →
      ∀ rest acc, start_listening cfg rest = .ok acc →
        ∃ acts, listen_one cfg l = .ok acts ∧
          start_listening cfg (l :: rest) = .ok (acts ++ acc)) := by
  have hmet : l.type = "metrics" →
      listen_one cfg l = .ok (if cfg.enable_metrics then
        [.metricsBind l.port l.bind_addresses] else [.warnMetricsNotEnabled]) := by
    intro h
    rw [listen_one, h]
    cases he : cfg.enable_metrics <;> simp [he]
  have hunk : l.type ∉ recognizedListenerTypes →
      listen_one cfg l = .ok [.warnUnknownListener l.type] := by
    intro h
    have h1 : l.type ≠ "http" := fun he => h (by rw [he]; decide)
    have h2 : l.type ≠ "manhole" := fun he => h (by rw [he]; decide)
    have h3 : l.type ≠ "replication" := fun he => h (by rw [he]; decide)
    have h4 : l.type ≠ "metrics" := fun he => h (by rw [he]; decide)
    rw [listen_one]
    simp [beq_eq_false_iff_ne.mpr h1, beq_eq_false_iff_ne.mpr h2,
      beq_eq_false_iff_ne.mpr h3, beq_eq_false_iff_ne.mpr h4]
  refine ⟨hmet, hunk, ?_⟩
  intro h rest acc hacc
  rcases h with h | h
  · refine ⟨_, hmet h, ?_⟩
    rw [start_listening, hmet h, hacc]
  · refine ⟨_, hunk h, ?_⟩
    rw [start_listening, hunk h, hacc]

/-- C7 witness: a metrics listener under a configuration with metrics
disabled yields the warning action, not a bind, and does not fail. -/
theorem C7_metrics_and_unknown_nonfatal_witness :
    listen_one cfgNoMedia lcMetrics = .ok [ListenAction.warnMetricsNotEnabled] :=
  (C7_metrics_and_unknown_nonfatal cfgNoMedia lcMetrics).1 rfl

/-! ## Claim C8 -/

/-- C8: the MAU refresh sets exactly three gauges — current,
registered-reserved, max, under their fixed metric names.  When
limiting or stats-only mode is enabled the current and reserved gauges
carry the datastore counts and both datastore queries are issued;
otherwise both gauges are zero and the datastore is not queried.  The
max gauge always carries the configured maximum. -/
theorem C8_mau_gauges (cfg : Config) (store : MauStore) :
    ((generate_monthly_active_users cfg store).1.length = 3) ∧
    ((cfg.limit_usage_by_mau || cfg.mau_stats_only) = true →
      (generate_monthly_active_users cfg store).1 =
        [("synapse_admin_mau:current", store.monthly_active_count),
         ("synapse_admin_mau:registered_reserved_users",
           store.registered_reserved_users_count),
         ("synapse_admin_mau:max", cfg.max_mau_value)] ∧
      (generate_monthly_active_users cfg store).2 =
        [MauQuery.getMonthlyActiveCount,
         MauQuery.getRegisteredReservedUsersCount]) ∧
    ((cfg.limit_usage_by_mau || cfg.mau_stats_only) = false →
      (generate_monthly_active_users cfg store).1 =
        [("synapse_admin_mau:current", 0),
         ("synapse_admin_mau:registered_reserved_users", 0),
         ("synapse_admin_mau:max", cfg.max_mau_value)] ∧
      (generate_monthly_active_users cfg store).2 = []) := by
  refine ⟨?_, ?_, ?_⟩
  · cases h : (cfg.limit_usage_by_mau || cfg.mau_stats_only) <;>
      simp [generate_monthly_active_users, h]
  · intro h
    simp [generate_monthly_active_users, h]
  · intro h
    simp [generate_monthly_active_users, h]

/-- C8 witness: with limiting enabled the gauges carry the datastore
counts and the configured maximum. -/
theorem C8_mau_gauges_witness :
    (generate_monthly_active_users cfgMau mauStoreW).1 =
      [("synapse_admin_mau:current", 7),
       ("synapse_admin_mau:registered_reserved_users", 2),
       ("synapse_admin_mau:max", 50)] :=
  ((C8_mau_gauges cfgMau mauStoreW).2.1 rfl).1

end Synapse

namespace Synapse

/-- A string with prefix `pre` differs from `k` whenever `pre` is not the
corresponding prefix of `k`. -/
theorem append_ne_of_take (pre n k : String)
    (h : pre.data ≠ k.data.take pre.data.length) : pre ++ n ≠ k := by
  intro he
  apply h
  have hd : pre.data ++ n.data = k.data := by
    rw [← String.data_append, he]
  rw [← hd, List.take_left]

/-- All keys of an assignment list differ from `k` when the boolean
check over its key list evaluates so. -/
theorem keys_skip (l : List (String × StatValue)) (k : String)
    (h : ((l.map Prod.fst).all (fun s => s != k)) = true) :
    ∀ p ∈ l, (p.1 == k) = false := by
  intro p hp
  have hb := List.all_eq_true.mp h p.1 (List.mem_map_of_mem Prod.fst hp)
  cases hq : (p.1 == k) with
  | false => rfl
  | true => rw [bne, hq] at hb; simp at hb

/-- Appending assignments none of which touch `k` leaves the lookup of
`k` unchanged. -/
theorem statsGet_append_skip (l1 l2 : List (String × StatValue)) (k : String)
    (h : ∀ p ∈ l2, (p.1 == k) = false) :
    statsGet (l1 ++ l2) k = statsGet l1 k := by
  unfold statsGet
  rw [List.foldl_append]
  generalize (List.foldl (fun acc p => if p.1 == k then some p.2 else acc) none l1) = acc
  induction l2 generalizing acc with
  | nil => rfl
  | cons p rest ih =>
    rw [List.foldl_cons, if_neg (by simp [h p (List.mem_cons_self p rest)])]
    exact ih (fun q hq => h q (List.mem_cons_of_mem p hq)) acc

/-- The lookup of `uptime_seconds` in the telemetry payload: the clamped
elapsed time. -/
theorem statsGet_uptime (cfg : Config) (store : StatsStore) (now st : Int)
    (pv : String) (cf : Int) (procs : List (Nat × Nat)) :
    statsGet (phone_stats_home cfg store now st pv cf procs) "uptime_seconds" =
      some (.n (if now - st < 0 then 0 else now - st)) := by
  unfold phone_stats_home
  rw [statsGet_append_skip _ _ _ (by exact keys_skip _ _ rfl),
      statsGet_append_skip _ _ _ (by
        intro p hp
        split at hp
        · refine keys_skip _ _ ?_ p hp
          rfl
        · simp at hp),
      statsGet_append_skip _ _ _ (by exact keys_skip _ _ rfl),
      statsGet_append_skip _ _ _ (by
        intro p hp
        simp only [List.mem_map] at hp
        obtain ⟨q, -, rfl⟩ := hp
        exact beq_eq_false_iff_ne.mpr
          (append_ne_of_take "r30_users_" q.1 "uptime_seconds" (by decide))),
      statsGet_append_skip _ _ _ (by exact keys_skip _ _ rfl),
      statsGet_append_skip _ _ _ (by
        intro p hp
        simp only [List.mem_map] at hp
        obtain ⟨q, -, rfl⟩ := hp
        exact beq_eq_false_iff_ne.mpr
          (append_ne_of_take "daily_user_type_" q.1 "uptime_seconds" (by decide)))]
  rfl

/-- The lookup of `total_users` in the telemetry payload: the
datastore's total user count. -/
theorem statsGet_total_users (cfg : Config) (store : StatsStore) (now st : Int)
    (pv : String) (cf : Int) (procs : List (Nat × Nat)) :
    statsGet (phone_stats_home cfg store now st pv cf procs) "total_users" =
      some (.n store.count_all_users) := by
  unfold phone_stats_home
  rw [statsGet_append_skip _ _ _ (by exact keys_skip _ _ rfl),
      statsGet_append_skip _ _ _ (by
        intro p hp
        split at hp
        · refine keys_skip _ _ ?_ p hp
          rfl
        · simp at hp),
      statsGet_append_skip _ _ _ (by exact keys_skip _ _ rfl),
      statsGet_append_skip _ _ _ (by
        intro p hp
        simp only [List.mem_map] at hp
        obtain ⟨q, -, rfl⟩ := hp
        exact beq_eq_false_iff_ne.mpr
          (append_ne_of_take "r30_users_" q.1 "total_users" (by decide))),
      statsGet_append_skip _ _ _ (by exact keys_skip _ _ rfl),
      statsGet_append_skip _ _ _ (by
        intro p hp
        simp only [List.mem_map] at hp
        obtain ⟨q, -, rfl⟩ := hp
        exact beq_eq_false_iff_ne.mpr
          (append_ne_of_take "daily_user_type_" q.1 "total_users" (by decide)))]
  rfl

end Synapse

namespace Synapse

/-! ## Claim C9 -/

/-- C9 counterexample: for a clock where now − start = −5 the payload's
`uptime_seconds` is 0, not the elapsed time now − start, so the claim's
universally quantified equality fails. -/
theorem C9_uptime_not_elapsed_on_backwards_clock :
    statsGet (phone_stats_home cfgNoMedia statsStoreW 0 5 "2.7.16" 1 [])
        "uptime_seconds" = some (.n 0) ∧
    (0 : Int) - 5 ≠ 0 := ⟨rfl, by decide⟩

/-- C9 (amended): the payload's `uptime_seconds` equals now − start
clamped below at zero (so equals now − start whenever now ≥ start), and
`total_users` equals the datastore's total user count; in particular
the 3600-second / 10-user stub yields 3600 and 10. -/
theorem C9_report_fields (cfg : Config) (store : StatsStore) (now st : Int)
    (pv : String) (cf : Int) (procs : List (Nat × Nat)) :
    (statsGet (phone_stats_home cfg store now st pv cf procs) "uptime_seconds" =
      some (.n (if now - st < 0 then 0 else now - st))) ∧
    (statsGet (phone_stats_home cfg store now st pv cf procs) "total_users" =
      some (.n store.count_all_users)) ∧
    (statsGet (phone_stats_home cfgNoMedia statsStoreW 3600 0 "2.7.16" 1 [])
        "uptime_seconds" = some (.n 3600)) ∧
    (statsGet (phone_stats_home cfgNoMedia statsStoreW 3600 0 "2.7.16" 1 [])
        "total_users" = some (.n 10)) :=
  ⟨statsGet_uptime cfg store now st pv cf procs,
   statsGet_total_users cfg store now st pv cf procs, rfl, rfl⟩

/-! ## Claim C10 -/

/-- C10: whenever the clock reads earlier than the recorded start time,
the reported `uptime_seconds` is 0, never negative. -/
theorem C10_uptime_clamped (cfg : Config) (store : StatsStore) (now st : Int)
    (pv : String) (cf : Int) (procs : List (Nat × Nat)) (h : now - st < 0) :
    statsGet (phone_stats_home cfg store now st pv cf procs) "uptime_seconds" =
      some (.n 0) := by
  rw [statsGet_uptime, if_pos h]

/-- C10 witness: the clamping theorem at a clock 5 seconds behind the
start time. -/
theorem C10_uptime_clamped_witness :
    statsGet (phone_stats_home cfgNoMedia statsStoreW 0 5 "2.7.16" 1 [])
        "uptime_seconds" = some (.n 0) :=
  C10_uptime_clamped cfgNoMedia statsStoreW 0 5 "2.7.16" 1 [] (by decide)

end Synapse
